import Mathlib

/-!
Verification of the incremental streaming-data fetcher and poster cache of the
TooScaryDidntStream repository (scripts/fetch_streaming_info.py and
scripts/cache_movie_posters.py), as a shallow embedding in Lean.

Dates are modelled as Gregorian calendar dates; `dayNumber` is the standard
civil-day count, matching the day component of the difference of two Python
`datetime` values at `%Y-%m-%d` granularity.  Network calls are modelled by
oracle environments (`ProviderEnv`, `PosterEnv`): a function of the oracle
records what the corresponding HTTP request would have returned, with `none`
or `[]` standing for a failed call, exactly as the Python code collapses
request exceptions to `None` or `[]` before any caller can observe them.
-/

namespace TooScary

/-- A Gregorian calendar date, as produced by `datetime.strptime(s, "%Y-%m-%d")`. -/
structure Date where
  year : Nat
  month : Nat
  day : Nat
deriving DecidableEq, Repr

/-- Validity of a date as enforced by Python's `datetime` constructor
(`MINYEAR = 1`, `MAXYEAR = 9999`, day bounded by the month length). -/
def isLeapYear (y : Nat) : Bool :=
  y % 4 == 0 && (y % 100 != 0 || y % 400 == 0)

/-- Length of a month, as validated by the `datetime` constructor. -/
def daysInMonth (y m : Nat) : Nat :=
  if m = 2 then (if isLeapYear y then 29 else 28)
  else if m = 4 ∨ m = 6 ∨ m = 9 ∨ m = 11 then 30
  else 31

/-- A date accepted by Python's `datetime` constructor. -/
def Date.Valid (d : Date) : Prop :=
  1 ≤ d.year ∧ d.year ≤ 9999 ∧ 1 ≤ d.month ∧ d.month ≤ 12 ∧
    1 ≤ d.day ∧ d.day ≤ daysInMonth d.year d.month

instance (d : Date) : Decidable d.Valid := by
  unfold Date.Valid
  infer_instance

/-- Civil day number of a date (days since 0000-03-01, the standard
days-from-civil algorithm).  The difference of two `dayNumber`s is the `days`
field of the difference of the two Python `datetime`s. -/
def dayNumber (d : Date) : Nat :=
  let y := if d.month ≤ 2 then d.year - 1 else d.year
  let era := y / 400
  let yoe := y % 400
  let mp := (d.month + 9) % 12
  let doy := (153 * mp + 2) / 5 + d.day - 1
  let doe := yoe * 365 + yoe / 4 - yoe / 100 + doy
  era * 146097 + doe

/-- Whole days elapsed from `upd` to `today`; this is
`(datetime.now() - update_date).days` in the source. -/
def daysSince (today upd : Date) : Int :=
  (dayNumber today : Int) - (dayNumber upd : Int)

/-- Character for a single decimal digit. -/
def digitChar (n : Nat) : Char := Char.ofNat (48 + n)

/-- Test for an ASCII decimal digit, as matched by the platform regex for
strptime numeric fields. -/
def isDigitChar (c : Char) : Bool := c.isDigit

/-- Numeric value of a digit string. -/
def digitsVal (l : List Char) : Nat :=
  l.foldl (fun a c => a * 10 + (c.toNat - 48)) 0

/-- Split a character list at every dash, mirroring how strptime consumes the
literal dashes of the format "%Y-%m-%d". -/
def splitDash : List Char → List (List Char)
  | [] => [[]]
  | c :: cs =>
    if c = '-' then [] :: splitDash cs
    else
      match splitDash cs with
      | [] => [[c]]
      | g :: gs => (c :: g) :: gs

/-- Parse one numeric field of the format: all digits, length within bounds. -/
def parseFieldNat (l : List Char) (minLen maxLen : Nat) : Option Nat :=
  if minLen ≤ l.length ∧ l.length ≤ maxLen ∧ l.all isDigitChar then
    some (digitsVal l)
  else none

/-- Parse a character list as "%Y-%m-%d", following CPython strptime: `%Y` is
exactly four digits, `%m` and `%d` are one or two digits, the whole string
must be consumed, and the resulting numbers must form a date accepted by the
`datetime` constructor.  Failure models the `ValueError` raised there. -/
def parseDateChars (l : List Char) : Option Date :=
  match splitDash l with
  | [ys, ms, ds] =>
    match parseFieldNat ys 4 4, parseFieldNat ms 1 2, parseFieldNat ds 1 2 with
    | some y, some m, some d =>
      if 1 ≤ y ∧ 1 ≤ m ∧ m ≤ 12 ∧ 1 ≤ d ∧ d ≤ daysInMonth y m then
        some { year := y, month := m, day := d }
      else none
    | _, _, _ => none
  | _ => none

/-- Parse a string as "%Y-%m-%d"; `none` models a `ValueError`. -/
def parseDateYMD (s : String) : Option Date := parseDateChars s.data

/-- Two zero-padded digits, as produced by strftime fields "%m" and "%d". -/
def twoDigitChars (n : Nat) : List Char :=
  [digitChar (n / 10 % 10), digitChar (n % 10)]

/-- Four zero-padded digits, as produced by strftime field "%Y" for the years
reachable from `datetime.now()`. -/
def fourDigitChars (n : Nat) : List Char :=
  [digitChar (n / 1000 % 10), digitChar (n / 100 % 10),
   digitChar (n / 10 % 10), digitChar (n % 10)]

/-- Format a date as `datetime.now().strftime("%Y-%m-%d")` does. -/
def formatYMD (d : Date) : String :=
  String.mk (fourDigitChars d.year ++ '-' :: twoDigitChars d.month ++ '-' :: twoDigitChars d.day)

/-! ### Data model of movies.json and streaming_data.json -/

/-- One streaming source entry, as built by the provider queries. -/
structure Source where
  name : String
  type : String
  region : String
  web_url : String
  logo_url : String
deriving DecidableEq, Repr

/-- The (name, type) pair used for de-duplication in the provider merge. -/
def sourceKey (s : Source) : String × String := (s.name, s.type)

/-- A movie record stored in streaming_data.json. -/
structure StoredMovie where
  title : String
  year : Option Nat
  imdb_id : String
  streaming_sources : List Source
  data_sources : List String
  last_updated : Option String
  tmdb_id : Option Nat
  watchmode_id : Option Nat
deriving DecidableEq, Repr

/-- An episode entry of streaming_data.json. -/
structure EpisodeRecord where
  episode_number : Nat
  movies : List StoredMovie
deriving DecidableEq, Repr

/-- The metadata block written by `update_streaming_data`. -/
structure Metadata where
  podcast_name : String
  last_updated : String
  total_episodes : Nat
  apis_used : List String
  update_strategy : String
deriving DecidableEq, Repr

/-- The whole streaming_data.json document. -/
structure StreamingData where
  episodes : List EpisodeRecord
  metadata : Option Metadata
deriving DecidableEq, Repr

/-- A movie entry of movies.json (the fields read by the fetcher). -/
structure InputMovie where
  title : String
  year : Option Nat
  imdb_id : String
deriving DecidableEq, Repr

/-- An episode entry of movies.json. -/
structure InputEpisode where
  episode_number : Nat
  movies : List InputMovie
deriving DecidableEq, Repr

/-- The whole movies.json document. -/
structure MoviesData where
  episodes : List InputEpisode
deriving DecidableEq, Repr

/-- An element of the `movies_to_update` work list. -/
structure UpdateItem where
  episode_number : Nat
  movie : InputMovie
deriving DecidableEq, Repr

/-! ### is_movie_recently_updated (fetch_streaming_info.py lines 235-252) -/

/-- Cache window: `self.cache_duration_days = 7`. -/
def cache_duration_days : Nat := 7

/-- Freshness verdict for a parse result; `none` models `ValueError`. -/
def parsedDecision (today : Date) : Option Date → Bool
  | some d => decide (daysSince today d < (cache_duration_days : Int))
  | none => false

/-- Decision taken on a `last_updated` value: `none` models falling through
(missing or falsy value, which continues the scan), `some b` models the
`return` statements. -/
def luDecision (today : Date) : Option String → Option Bool
  | none => none
  | some lu => if lu = "" then none else some (parsedDecision today (parseDateYMD lu))

/-- Decision taken once a movie with the looked-up title is reached in the
scan. -/
def movieDecision (today : Date) (m : StoredMovie) : Option Bool :=
  luDecision today m.last_updated

/-- Inner loop over an episode's movie list. -/
def scanMovies (today : Date) (movie_title : String) : List StoredMovie → Option Bool
  | [] => none
  | m :: rest =>
    if m.title = movie_title then
      match movieDecision today m with
      | some b => some b
      | none => scanMovies today movie_title rest
    else scanMovies today movie_title rest

/-- Outer loop over the episode list (the Python loop has no `break`, so a
non-deciding match falls through to later episodes). -/
def scanEpisodes (today : Date) (movie_title : String) (episode_number : Nat) :
    List EpisodeRecord → Option Bool
  | [] => none
  | e :: rest =>
    if e.episode_number = episode_number then
      match scanMovies today movie_title e.movies with
      | some b => some b
      | none => scanEpisodes today movie_title episode_number rest
    else scanEpisodes today movie_title episode_number rest

/-- `StreamingInfoFetcher.is_movie_recently_updated`.  The `Option` on the
streaming data models `self.streaming_data` being `None` before
`load_streaming_data` has run. -/
def is_movie_recently_updated (streaming_data : Option StreamingData) (today : Date)
    (movie_title : String) (episode_number : Nat) : Bool :=
  match streaming_data with
  | none => false
  | some sd =>
    match scanEpisodes today movie_title episode_number sd.episodes with
    | some b => b
    | none => false

/-- `StreamingInfoFetcher.get_movies_to_update` (lines 254-275). -/
def get_movies_to_update (movies_data : MoviesData) (streaming_data : Option StreamingData)
    (today : Date) : List UpdateItem :=
  movies_data.episodes.flatMap (fun ep =>
    (ep.movies.filter (fun m =>
        !(is_movie_recently_updated streaming_data today m.title ep.episode_number))).map
      (fun m => { episode_number := ep.episode_number, movie := m }))

/-! ### fetch_movie_streaming_info (lines 277-338) -/

/-- A Watchmode search result, with the fields the fetcher reads. -/
structure WmResult where
  id : Nat
  tmdb_id : Option Nat
deriving DecidableEq, Repr

/-- Oracle for the provider HTTP APIs.  `none` and `[]` results cover both
"no data" and a request failure, since the source catches request exceptions
inside each helper and returns `None` or `[]`. -/
structure ProviderEnv where
  hasWatchmodeKey : Bool
  hasTmdbKey : Bool
  searchWatchmode : String → Option Nat → Option WmResult
  watchmodeSources : Nat → List Source
  searchTmdb : String → Option Nat → Option Nat
  tmdbSources : Nat → List Source

/-- The merge of lines 311-318: keep the Watchmode sources, then append each
TMDB source whose (name, type) key is not in `existing_keys`.  Note that
`existing_keys` is computed once, before the loop, from the Watchmode list
only. -/
def mergeSources (watchmode_sources tmdb_sources : List Source) : List Source :=
  if tmdb_sources.isEmpty then watchmode_sources
  else
    let existing_keys := watchmode_sources.map sourceKey
    tmdb_sources.foldl
      (fun acc src => if sourceKey src ∈ existing_keys then acc else acc ++ [src])
      watchmode_sources

/-- The Watchmode search performed by `fetch_movie_streaming_info` (guarded
by the presence of the Watchmode key, as in the source). -/
def wmLookup (env : ProviderEnv) (movie : InputMovie) : Option WmResult :=
  if env.hasWatchmodeKey then env.searchWatchmode movie.title movie.year else none

/-- The Watchmode sources obtained from a search result. -/
def wmSourcesOf (env : ProviderEnv) : Option WmResult → List Source
  | some w => env.watchmodeSources w.id
  | none => []

/-- The TMDB id after the Watchmode reuse and the TMDB search fallback. -/
def tmdbIdOf (env : ProviderEnv) (movie : InputMovie) (wm : Option WmResult) : Option Nat :=
  match wm.bind (fun w => w.tmdb_id) with
  | some t => some t
  | none => if env.hasTmdbKey then env.searchTmdb movie.title movie.year else none

/-- The TMDB sources fetched when a TMDB id and key are available. -/
def tmdbSourcesOf (env : ProviderEnv) : Option Nat → List Source
  | some t => if env.hasTmdbKey then env.tmdbSources t else []
  | none => []

/-- `StreamingInfoFetcher.fetch_movie_streaming_info`.  The unused
`episode_number` parameter of the Python function is kept. -/
def fetch_movie_streaming_info (env : ProviderEnv) (movie : InputMovie)
    (episode_number : Nat) (today : Date) : StoredMovie :=
  let _ := episode_number
  let wmFound : Option WmResult := wmLookup env movie
  let watchmode_sources : List Source := wmSourcesOf env wmFound
  let tmdb_id : Option Nat := tmdbIdOf env movie wmFound
  let tmdb_sources : List Source := tmdbSourcesOf env tmdb_id
  let streaming_sources := mergeSources watchmode_sources tmdb_sources
  let data_sources :=
    (if watchmode_sources.isEmpty then [] else ["watchmode"]) ++
      (if tmdb_sources.isEmpty then [] else ["tmdb"])
  { title := movie.title
    year := movie.year
    imdb_id := movie.imdb_id
    streaming_sources := streaming_sources
    data_sources := data_sources
    last_updated := some (formatYMD today)
    tmdb_id := tmdb_id
    watchmode_id := wmFound.map (fun w => w.id) }

/-! ### Loading the input files (lines 340-364) -/

/-- Result of running one of the loader methods: normal return, `sys.exit`,
or an uncaught exception terminating the process. -/
inductive LoadOutcome (α : Type) where
  | ok (value : α)
  | exitCode (code : Nat)
  | crash
deriving DecidableEq, Repr

/-- A loader outcome that terminates the process. -/
def isFatal {α : Type} : LoadOutcome α → Bool
  | .ok _ => false
  | .exitCode _ => true
  | .crash => true

/-- A JSON input file: `none` is a missing file, `Except.error` holds a JSON
decode error, `Except.ok` the parsed document. -/
abbrev JsonFile (α : Type) := Option (Except String α)

/-- `StreamingInfoFetcher.load_movies_data`: missing file and malformed JSON
both call `sys.exit(1)`. -/
def load_movies_data (file : JsonFile MoviesData) : LoadOutcome MoviesData :=
  match file with
  | none => .exitCode 1
  | some (.error _) => .exitCode 1
  | some (.ok d) => .ok d

/-- The fresh document created when streaming_data.json is absent. -/
def emptyStreamingData : StreamingData := { episodes := [], metadata := none }

/-- `StreamingInfoFetcher.load_streaming_data`: a missing file is replaced by
an empty document, while a `json.JSONDecodeError` is not caught and escapes. -/
def load_streaming_data (file : JsonFile StreamingData) : LoadOutcome StreamingData :=
  match file with
  | none => .ok emptyStreamingData
  | some (.error _) => .crash
  | some (.ok d) => .ok d

/-! ### update_streaming_data (lines 376-429) -/

/-- `existing_episodes[episode["episode_number"]] = episode` on a Python dict:
replace the value in place if the key exists, else append. -/
def dictInsert (d : List EpisodeRecord) (e : EpisodeRecord) : List EpisodeRecord :=
  if d.any (fun x => x.episode_number == e.episode_number) then
    d.map (fun x => if x.episode_number == e.episode_number then e else x)
  else d ++ [e]

/-- The inner movie loop of `update_streaming_data`: replace the first movie
with the given title, or append the new record when no title matches. -/
def updateMoviesList : List StoredMovie → String → StoredMovie → List StoredMovie
  | [], _, new => [new]
  | m :: rest, t, new =>
    if m.title = t then new :: rest else m :: updateMoviesList rest t new

/-- One iteration of the `for item in movies_to_update` loop. -/
def updateStep (env : ProviderEnv) (today : Date) (d : List EpisodeRecord)
    (item : UpdateItem) : List EpisodeRecord :=
  let updated_movie := fetch_movie_streaming_info env item.movie item.episode_number today
  if d.any (fun x => x.episode_number == item.episode_number) then
    d.map (fun x =>
      if x.episode_number == item.episode_number then
        { x with movies := updateMoviesList x.movies item.movie.title updated_movie }
      else x)
  else d ++ [{ episode_number := item.episode_number, movies := [updated_movie] }]

/-- Ordering used by `updated_episodes.sort(key=lambda x: x["episode_number"])`. -/
def epLE (a b : EpisodeRecord) : Prop := a.episode_number ≤ b.episode_number

instance : DecidableRel epLE := fun a b => Nat.decLe a.episode_number b.episode_number

instance : IsTotal EpisodeRecord epLE :=
  ⟨fun a b => Nat.le_total a.episode_number b.episode_number⟩

instance : IsTrans EpisodeRecord epLE :=
  ⟨fun _ _ _ h h' => Nat.le_trans h h'⟩

/-- The episode list produced by `update_streaming_data`: build the dict from
the existing episodes, run the update loop, take the values and sort them by
episode number.  Python's stable sort is modelled by insertion sort, which is
also stable. -/
def updateEpisodes (sd : StreamingData) (items : List UpdateItem) (env : ProviderEnv)
    (today : Date) : List EpisodeRecord :=
  let existing := sd.episodes.foldl dictInsert []
  let updated := items.foldl (updateStep env today) existing
  List.insertionSort epLE updated

/-- The podcast name written into the metadata block. -/
def podcastName : String :=
  "Too Scary; Didn" ++ String.mk [Char.ofNat 39] ++ "t Watch"

/-- `StreamingInfoFetcher.update_streaming_data` on already-loaded data: the
new document that gets saved. -/
def update_streaming_data (sd : StreamingData) (items : List UpdateItem)
    (env : ProviderEnv) (today : Date) : StreamingData :=
  let eps := updateEpisodes sd items env today
  { episodes := eps
    metadata := some
      { podcast_name := podcastName
        last_updated := formatYMD today
        total_episodes := eps.length
        apis_used := ["tmdb"]
        update_strategy := "incremental_with_caching" } }

/-! ### run (lines 431-453) -/

/-- What a whole run produces: the work list actually fetched over the
network, and the document saved (if any). -/
structure RunResult where
  fetched : List UpdateItem
  saved : Option StreamingData
deriving DecidableEq, Repr

/-- The work list computed by `run()`.  Crucially, `run` calls
`get_movies_to_update` before anything has loaded streaming_data.json, so
`self.streaming_data` is still `None` at that point. -/
def run_movies_to_update (movies_data : MoviesData) (today : Date) : List UpdateItem :=
  get_movies_to_update movies_data none today

/-- `StreamingInfoFetcher.run`: load movies.json, compute the work list (with
`self.streaming_data` still `None`), and if it is nonempty load
streaming_data.json and update it.  Every item of the work list causes
network requests via `fetch_movie_streaming_info`. -/
def run (moviesFile : JsonFile MoviesData) (streamingFile : JsonFile StreamingData)
    (env : ProviderEnv) (today : Date) : LoadOutcome RunResult :=
  match load_movies_data moviesFile with
  | .exitCode c => .exitCode c
  | .crash => .crash
  | .ok md =>
    let items := run_movies_to_update md today
    if items.isEmpty then .ok { fetched := [], saved := none }
    else
      match load_streaming_data streamingFile with
      | .exitCode c => .exitCode c
      | .crash => .crash
      | .ok sd =>
        .ok { fetched := items, saved := some (update_streaming_data sd items env today) }

/-- Fetched work list of a run outcome (empty when the run died). -/
def fetchedOf : LoadOutcome RunResult → List UpdateItem
  | .ok r => r.fetched
  | _ => []

/-! ### Poster cache (cache_movie_posters.py lines 118-175) -/

/-- Oracle for the TMDB poster endpoints.  `movieDetails` is the
`/movie/{id}` request: `none` for a failed or non-200 response, `some none`
for a 200 response without `poster_path`, `some (some p)` for a usable
poster path.  `posterDownloadOk size path` tells whether the image GET for
that size and path succeeds with status 200. -/
structure PosterEnv where
  hasTmdbKey : Bool
  movieDetails : Nat → Option (Option String)
  posterDownloadOk : String → String → Bool

/-- State threaded through one `download_poster` call: the result map, the
files on disk, plus logs of file writes and image GET attempts. -/
structure DlState where
  cached : List (String × String)
  fs : List String
  writes : List String
  attempts : List String
deriving DecidableEq, Repr

/-- `PosterCacheManager.get_poster_filename`. -/
def get_poster_filename (tmdb_id : Nat) (size : String) : String :=
  toString tmdb_id ++ "_" ++ size ++ ".jpg"

/-- One iteration of the `for size in sizes` loop of `download_poster`: skip
when the file is already cached, otherwise attempt the download and write the
file on success. -/
def downloadSizeStep (env : PosterEnv) (tmdb_id : Nat) (poster_path : String)
    (st : DlState) (size : String) : DlState :=
  let filename := get_poster_filename tmdb_id size
  if st.fs.contains filename then
    { st with cached := st.cached ++ [(size, "posters/" ++ filename)] }
  else if env.posterDownloadOk size poster_path then
    { cached := st.cached ++ [(size, "posters/" ++ filename)]
      fs := st.fs ++ [filename]
      writes := st.writes ++ [filename]
      attempts := st.attempts ++ [size] }
  else
    { st with attempts := st.attempts ++ [size] }

/-- `PosterCacheManager.download_poster`, over a starting filesystem `fs0`. -/
def download_poster (env : PosterEnv) (tmdb_id : Nat) (sizes : List String)
    (fs0 : List String) : DlState :=
  let init : DlState := { cached := [], fs := fs0, writes := [], attempts := [] }
  if !env.hasTmdbKey then init
  else
    match env.movieDetails tmdb_id with
    | none => init
    | some none => init
    | some (some poster_path) => sizes.foldl (downloadSizeStep env tmdb_id poster_path) init

/-! ### Concrete data used by counterexamples and witnesses -/

/-- A movies.json entry used in concrete instances. -/
def exMovie : InputMovie := { title := "Halloween", year := some 1978, imdb_id := "tt0077651" }

/-- A streaming record for `exMovie` last updated on 2026-10-10. -/
def exRecord : StoredMovie :=
  { title := "Halloween", year := some 1978, imdb_id := "tt0077651",
    streaming_sources := [], data_sources := ["tmdb"],
    last_updated := some "2026-10-10", tmdb_id := some 948, watchmode_id := none }

/-- A streaming_data.json document holding `exRecord` under episode 1. -/
def sdEx : StreamingData :=
  { episodes := [{ episode_number := 1, movies := [exRecord] }], metadata := none }

/-- A movies.json document holding `exMovie` under episode 1. -/
def mdEx : MoviesData := { episodes := [{ episode_number := 1, movies := [exMovie] }] }

/-- A concrete current date two days after `exRecord.last_updated`. -/
def todayEx : Date := { year := 2026, month := 10, day := 12 }

/-- A provider environment with no API keys and failing lookups. -/
def envEx : ProviderEnv :=
  { hasWatchmodeKey := false, hasTmdbKey := false,
    searchWatchmode := fun _ _ => none, watchmodeSources := fun _ => [],
    searchTmdb := fun _ _ => none, tmdbSources := fun _ => [] }

/-- A concrete current date 52 days after `exRecord.last_updated`. -/
def lateDayEx : Date := { year := 2026, month := 12, day := 1 }

/-- A poster environment whose requests all succeed. -/
def penvEx : PosterEnv :=
  { hasTmdbKey := true, movieDetails := fun _ => some (some "/p.jpg"),
    posterDownloadOk := fun _ _ => true }

/-- A Netflix subscription source as the primary provider would return it. -/
def nfW : Source :=
  { name := "Netflix", type := "subscription", region := "US",
    web_url := "https://watchmode.example/netflix", logo_url := "wlogo" }

/-- A Netflix subscription source as the secondary provider would return it
(same (name, type) key, different urls). -/
def nfT : Source :=
  { name := "Netflix", type := "subscription", region := "US",
    web_url := "https://tmdb.example/netflix", logo_url := "tlogo" }

/-- A Tubi free source from the secondary provider. -/
def tubi : Source :=
  { name := "Tubi", type := "free", region := "US",
    web_url := "https://tmdb.example/tubi", logo_url := "blogo" }

/-! ### Lemmas about the provider merge -/

theorem foldl_merge_eq_filter (K : List (String × String)) :
    ∀ (t : List Source) (acc : List Source),
      t.foldl (fun acc src => if sourceKey src ∈ K then acc else acc ++ [src]) acc =
        acc ++ t.filter (fun s => !(decide (sourceKey s ∈ K)))
  | [], acc => by simp
  | s :: rest, acc => by
    by_cases h : sourceKey s ∈ K
    · rw [List.foldl_cons, if_pos h, foldl_merge_eq_filter K rest acc]
      simp [List.filter_cons, h]
    · rw [List.foldl_cons, if_neg h, foldl_merge_eq_filter K rest (acc ++ [s])]
      simp [List.filter_cons, h]

/-- The merge equals: primary sources, then the secondary sources whose
(name, type) key is not among the primary keys. -/
theorem mergeSources_eq (w t : List Source) :
    mergeSources w t =
      w ++ t.filter (fun s => !(decide (sourceKey s ∈ w.map sourceKey))) := by
  unfold mergeSources
  by_cases ht : t.isEmpty
  · rw [if_pos ht]
    rw [List.isEmpty_iff] at ht
    subst ht
    simp
  · rw [if_neg ht]
    exact foldl_merge_eq_filter (w.map sourceKey) t w

/-! ### Lemmas about the freshness scan -/

theorem scanMovies_eq_none (today : Date) (t : String) :
    ∀ ms : List StoredMovie, (∀ m ∈ ms, m.title ≠ t) → scanMovies today t ms = none
  | [], _ => rfl
  | m :: rest, h => by
    have hm : m.title ≠ t := h m (List.mem_cons_self m rest)
    simp only [scanMovies, if_neg hm]
    exact scanMovies_eq_none today t rest (fun x hx => h x (List.mem_cons_of_mem m hx))

theorem scanMovies_eq_decision (today : Date) (t : String) :
    ∀ (ms : List StoredMovie) (r : StoredMovie), r ∈ ms → r.title = t →
      (ms.map (fun m => m.title)).Nodup → scanMovies today t ms = movieDecision today r
  | [], r, hmem, _, _ => absurd hmem (List.not_mem_nil r)
  | m :: rest, r, hmem, ht, hnd => by
    rw [List.map_cons, List.nodup_cons] at hnd
    rcases List.mem_cons.mp hmem with heq | hrest
    · subst heq
      rw [scanMovies, if_pos ht]
      cases hd : movieDecision today r with
      | some b => rfl
      | none =>
        show scanMovies today t rest = none
        refine scanMovies_eq_none today t rest ?_
        intro x hx hxt
        refine hnd.1 ?_
        rw [ht, ← hxt]
        exact List.mem_map_of_mem _ hx
    · have hm : m.title ≠ t := by
        intro hmt
        refine hnd.1 ?_
        rw [hmt, ← ht]
        exact List.mem_map_of_mem _ hrest
      rw [scanMovies, if_neg hm]
      exact scanMovies_eq_decision today t rest r hrest ht hnd.2

theorem scanEpisodes_eq_none (today : Date) (t : String) (ep : Nat) :
    ∀ eps : List EpisodeRecord, (∀ e ∈ eps, e.episode_number ≠ ep) →
      scanEpisodes today t ep eps = none
  | [], _ => rfl
  | e :: rest, h => by
    have he : e.episode_number ≠ ep := h e (List.mem_cons_self e rest)
    simp only [scanEpisodes, if_neg he]
    exact scanEpisodes_eq_none today t ep rest (fun x hx => h x (List.mem_cons_of_mem e hx))

theorem scanEpisodes_eq_scanMovies (today : Date) (t : String) (ep : Nat) :
    ∀ (eps : List EpisodeRecord) (e : EpisodeRecord), e ∈ eps → e.episode_number = ep →
      (eps.map (fun x => x.episode_number)).Nodup →
      scanEpisodes today t ep eps = scanMovies today t e.movies
  | [], e, hmem, _, _ => absurd hmem (List.not_mem_nil e)
  | x :: rest, e, hmem, hk, hnd => by
    rw [List.map_cons, List.nodup_cons] at hnd
    rcases List.mem_cons.mp hmem with heq | hrest
    · subst heq
      rw [scanEpisodes, if_pos hk]
      cases hd : scanMovies today t e.movies with
      | some b => rfl
      | none =>
        show scanEpisodes today t ep rest = none
        refine scanEpisodes_eq_none today t ep rest ?_
        intro y hy hyk
        refine hnd.1 ?_
        rw [hk, ← hyk]
        exact List.mem_map_of_mem _ hy
    · have hx : x.episode_number ≠ ep := by
        intro hxk
        refine hnd.1 ?_
        rw [hxk, ← hk]
        exact List.mem_map_of_mem _ hrest
      rw [scanEpisodes, if_neg hx]
      exact scanEpisodes_eq_scanMovies today t ep rest e hrest hk hnd.2

/-- Freshness check characterization: under unique episode numbers and unique
titles within the relevant episode, the check is exactly the decision taken
on the located record. -/
theorem isRecent_eq_decision (sd : StreamingData) (today : Date) (t : String) (ep : Nat)
    (e : EpisodeRecord) (r : StoredMovie)
    (hkeys : (sd.episodes.map (fun x => x.episode_number)).Nodup)
    (he : e ∈ sd.episodes) (hk : e.episode_number = ep)
    (htitles : (e.movies.map (fun m => m.title)).Nodup)
    (hr : r ∈ e.movies) (ht : r.title = t) :
    is_movie_recently_updated (some sd) today t ep = (movieDecision today r).getD false := by
  show (match scanEpisodes today t ep sd.episodes with | some b => b | none => false) =
    (movieDecision today r).getD false
  rw [scanEpisodes_eq_scanMovies today t ep sd.episodes e he hk hkeys,
    scanMovies_eq_decision today t e.movies r hr ht htitles]
  cases movieDecision today r <;> rfl

/-! ### Round trip between strftime and strptime for "%Y-%m-%d" -/

theorem digitChar_spec (k : Nat) (h : k < 10) :
    isDigitChar (digitChar k) = true ∧ (digitChar k).toNat = 48 + k ∧ digitChar k ≠ '-' := by
  interval_cases k <;> exact ⟨by decide, by decide, by decide⟩

theorem dash_not_mem_twoDigitChars (n : Nat) : '-' ∉ twoDigitChars n := by
  intro hmem
  rcases List.mem_cons.mp hmem with h | h
  · exact (digitChar_spec (n / 10 % 10) (Nat.mod_lt _ (by norm_num))).2.2 h.symm
  · rcases List.mem_cons.mp h with h2 | h2
    · exact (digitChar_spec (n % 10) (Nat.mod_lt _ (by norm_num))).2.2 h2.symm
    · exact absurd h2 (List.not_mem_nil _)

theorem dash_not_mem_fourDigitChars (n : Nat) : '-' ∉ fourDigitChars n := by
  intro hmem
  simp only [fourDigitChars, List.mem_cons, List.not_mem_nil, or_false] at hmem
  rcases hmem with h | h | h | h <;>
    exact (digitChar_spec _ (Nat.mod_lt _ (by norm_num))).2.2 h.symm

theorem splitDash_append (rest : List Char) :
    ∀ xs : List Char, '-' ∉ xs → splitDash (xs ++ '-' :: rest) = xs :: splitDash rest
  | [], _ => by
    rw [List.nil_append, splitDash, if_pos rfl]
  | c :: xs, h => by
    have hc : c ≠ '-' := fun hc => h (hc ▸ List.mem_cons_self c xs)
    have hxs : '-' ∉ xs := fun hx => h (List.mem_cons_of_mem c hx)
    rw [List.cons_append, splitDash, if_neg hc, splitDash_append rest xs hxs]

theorem splitDash_noDash : ∀ xs : List Char, '-' ∉ xs → splitDash xs = [xs]
  | [], _ => rfl
  | c :: xs, h => by
    have hc : c ≠ '-' := fun hc => h (hc ▸ List.mem_cons_self c xs)
    have hxs : '-' ∉ xs := fun hx => h (List.mem_cons_of_mem c hx)
    rw [splitDash, if_neg hc, splitDash_noDash xs hxs]

theorem digitsVal_twoDigitChars (n : Nat) : digitsVal (twoDigitChars n) = n % 100 := by
  have e1 : (digitChar (n / 10 % 10)).toNat = 48 + n / 10 % 10 :=
    (digitChar_spec _ (Nat.mod_lt _ (by norm_num))).2.1
  have e2 : (digitChar (n % 10)).toNat = 48 + n % 10 :=
    (digitChar_spec _ (Nat.mod_lt _ (by norm_num))).2.1
  simp only [digitsVal, twoDigitChars, List.foldl_cons, List.foldl_nil, e1, e2]
  omega

theorem digitsVal_fourDigitChars (n : Nat) : digitsVal (fourDigitChars n) = n % 10000 := by
  have e1 : (digitChar (n / 1000 % 10)).toNat = 48 + n / 1000 % 10 :=
    (digitChar_spec _ (Nat.mod_lt _ (by norm_num))).2.1
  have e2 : (digitChar (n / 100 % 10)).toNat = 48 + n / 100 % 10 :=
    (digitChar_spec _ (Nat.mod_lt _ (by norm_num))).2.1
  have e3 : (digitChar (n / 10 % 10)).toNat = 48 + n / 10 % 10 :=
    (digitChar_spec _ (Nat.mod_lt _ (by norm_num))).2.1
  have e4 : (digitChar (n % 10)).toNat = 48 + n % 10 :=
    (digitChar_spec _ (Nat.mod_lt _ (by norm_num))).2.1
  simp only [digitsVal, fourDigitChars, List.foldl_cons, List.foldl_nil, e1, e2, e3, e4]
  omega

theorem all_isDigit_twoDigitChars (n : Nat) : (twoDigitChars n).all isDigitChar = true := by
  have e1 := (digitChar_spec (n / 10 % 10) (Nat.mod_lt _ (by norm_num))).1
  have e2 := (digitChar_spec (n % 10) (Nat.mod_lt _ (by norm_num))).1
  simp [twoDigitChars, List.all, e1, e2]

theorem all_isDigit_fourDigitChars (n : Nat) : (fourDigitChars n).all isDigitChar = true := by
  have e1 := (digitChar_spec (n / 1000 % 10) (Nat.mod_lt _ (by norm_num))).1
  have e2 := (digitChar_spec (n / 100 % 10) (Nat.mod_lt _ (by norm_num))).1
  have e3 := (digitChar_spec (n / 10 % 10) (Nat.mod_lt _ (by norm_num))).1
  have e4 := (digitChar_spec (n % 10) (Nat.mod_lt _ (by norm_num))).1
  simp [fourDigitChars, List.all, e1, e2, e3, e4]

theorem parseFieldNat_fourDigitChars (n : Nat) :
    parseFieldNat (fourDigitChars n) 4 4 = some (n % 10000) := by
  rw [parseFieldNat, if_pos, digitsVal_fourDigitChars]
  refine ⟨by simp [fourDigitChars], by simp [fourDigitChars], all_isDigit_fourDigitChars n⟩

theorem parseFieldNat_twoDigitChars (n : Nat) :
    parseFieldNat (twoDigitChars n) 1 2 = some (n % 100) := by
  rw [parseFieldNat, if_pos, digitsVal_twoDigitChars]
  refine ⟨by simp [twoDigitChars], by simp [twoDigitChars], all_isDigit_twoDigitChars n⟩

/-- The formatter and the parser round-trip on every valid date: what
`strftime("%Y-%m-%d")` writes, `strptime(s, "%Y-%m-%d")` reads back. -/
theorem parseDateYMD_formatYMD (d : Date) (h : d.Valid) :
    parseDateYMD (formatYMD d) = some d := by
  obtain ⟨h1, h2, h3, h4, h5, h6⟩ := h
  show parseDateChars
      (fourDigitChars d.year ++ '-' :: (twoDigitChars d.month ++ '-' :: twoDigitChars d.day)) =
    some d
  have ey : d.year % 10000 = d.year := Nat.mod_eq_of_lt (by omega)
  have em : d.month % 100 = d.month := Nat.mod_eq_of_lt (by omega)
  have ed : d.day % 100 = d.day := by
    have : daysInMonth d.year d.month ≤ 31 := by
      unfold daysInMonth
      split
      · split <;> omega
      · split <;> omega
    exact Nat.mod_eq_of_lt (by omega)
  rw [parseDateChars, splitDash_append _ _ (dash_not_mem_fourDigitChars d.year),
    splitDash_append _ _ (dash_not_mem_twoDigitChars d.month),
    splitDash_noDash _ (dash_not_mem_twoDigitChars d.day)]
  simp only [parseFieldNat_fourDigitChars, parseFieldNat_twoDigitChars, ey, em, ed]
  rw [if_pos ⟨h1, h3, h4, h5, h6⟩]

theorem formatYMD_ne_empty (d : Date) : formatYMD d ≠ "" := by
  intro h
  have hd : (formatYMD d).data = ("" : String).data := by rw [h]
  simp [formatYMD, fourDigitChars] at hd

/-- The decision taken on a freshly written record at the date it was
written: the stamp parses back and is zero days old. -/
theorem movieDecision_fresh (today : Date) (h : today.Valid) (m : StoredMovie)
    (hlu : m.last_updated = some (formatYMD today)) :
    movieDecision today m = some true := by
  have hz : daysSince today today = 0 := Int.sub_self _
  simp only [movieDecision, hlu, luDecision, if_neg (formatYMD_ne_empty today),
    parseDateYMD_formatYMD today h, parsedDecision, hz]
  norm_num [cache_duration_days]

/-! ### Lemmas about the episode dictionary and the update loop -/

theorem fetch_title (env : ProviderEnv) (m : InputMovie) (ep : Nat) (today : Date) :
    (fetch_movie_streaming_info env m ep today).title = m.title := rfl

theorem fetch_last_updated (env : ProviderEnv) (m : InputMovie) (ep : Nat) (today : Date) :
    (fetch_movie_streaming_info env m ep today).last_updated = some (formatYMD today) := rfl

theorem foldl_dictInsert_eq :
    ∀ (l acc : List EpisodeRecord),
      (((acc ++ l).map (fun e => e.episode_number)).Nodup) →
      l.foldl dictInsert acc = acc ++ l
  | [], acc, _ => by simp
  | e :: rest, acc, h => by
    have hkey : e.episode_number ∉ acc.map (fun x => x.episode_number) := by
      intro hmem
      rw [List.map_append, List.nodup_append] at h
      exact h.2.2 hmem (by simp)
    have hany : acc.any (fun x => x.episode_number == e.episode_number) = false := by
      rw [List.any_eq_false]
      intro x hx hbeq
      exact hkey (by
        have : x.episode_number = e.episode_number := by simpa using hbeq
        rw [← this]
        exact List.mem_map_of_mem _ hx)
    rw [List.foldl_cons, dictInsert, if_neg (by simp [hany])]
    rw [foldl_dictInsert_eq rest (acc ++ [e]) (by simpa using h)]
    simp

theorem nodup_keys_dictInsert (d : List EpisodeRecord) (e : EpisodeRecord)
    (h : (d.map (fun x => x.episode_number)).Nodup) :
    ((dictInsert d e).map (fun x => x.episode_number)).Nodup := by
  unfold dictInsert
  by_cases hany : d.any (fun x => x.episode_number == e.episode_number) = true
  · rw [if_pos hany]
    have : ((d.map (fun x => if x.episode_number == e.episode_number then e else x)).map
        (fun x => x.episode_number)) = d.map (fun x => x.episode_number) := by
      rw [List.map_map]
      refine List.map_congr_left ?_
      intro x _
      by_cases hx : (x.episode_number == e.episode_number) = true
      · simp only [Function.comp, hx, if_pos]
        exact (by simpa using hx : x.episode_number = e.episode_number).symm
      · simp only [Function.comp, hx]
        simp [hx]
    rw [this]
    exact h
  · rw [if_neg hany]
    rw [List.map_append, List.nodup_append]
    refine ⟨h, by simp, ?_⟩
    intro k hk hk2
    rw [Bool.not_eq_true, List.any_eq_false] at hany
    simp only [List.map_cons, List.map_nil, List.mem_cons, List.not_mem_nil, or_false] at hk2
    rcases List.mem_map.mp hk with ⟨x, hx, hxk⟩
    exact hany x hx (by simp [hxk, hk2])

theorem nodup_keys_foldl_dictInsert :
    ∀ (l acc : List EpisodeRecord), ((acc.map (fun x => x.episode_number)).Nodup) →
      (((l.foldl dictInsert acc).map (fun x => x.episode_number)).Nodup)
  | [], _, h => h
  | e :: rest, acc, h => by
    rw [List.foldl_cons]
    exact nodup_keys_foldl_dictInsert rest (dictInsert acc e) (nodup_keys_dictInsert acc e h)

theorem updateStep_key_preserve (env : ProviderEnv) (today : Date) (it : UpdateItem)
    (x : EpisodeRecord) :
    ((if x.episode_number == it.episode_number then { x with movies := updateMoviesList x.movies it.movie.title (fetch_movie_streaming_info env it.movie it.episode_number today) } else x) : EpisodeRecord).episode_number = x.episode_number := by
  by_cases hx : (x.episode_number == it.episode_number) = true
  · rw [if_pos hx]
  · rw [if_neg hx]

theorem nodup_keys_updateStep (env : ProviderEnv) (today : Date)
    (d : List EpisodeRecord) (it : UpdateItem)
    (h : (d.map (fun x => x.episode_number)).Nodup) :
    (((updateStep env today d it).map (fun x => x.episode_number)).Nodup) := by
  simp only [updateStep]
  by_cases hany : d.any (fun x => x.episode_number == it.episode_number) = true
  · rw [if_pos hany]
    have : ((d.map (fun x =>
        if x.episode_number == it.episode_number then { x with movies := updateMoviesList x.movies it.movie.title (fetch_movie_streaming_info env it.movie it.episode_number today) } else x)).map (fun x => x.episode_number)) = d.map (fun x => x.episode_number) := by
      rw [List.map_map]
      refine List.map_congr_left ?_
      intro x _
      exact updateStep_key_preserve env today it x
    rw [this]
    exact h
  · rw [if_neg hany]
    rw [List.map_append, List.nodup_append]
    refine ⟨h, by simp, ?_⟩
    intro k hk hk2
    rw [Bool.not_eq_true, List.any_eq_false] at hany
    simp only [List.map_cons, List.map_nil, List.mem_cons, List.not_mem_nil, or_false] at hk2
    rcases List.mem_map.mp hk with ⟨x, hx, hxk⟩
    exact hany x hx (by simp [hxk, hk2])

theorem nodup_keys_foldl_updateStep (env : ProviderEnv) (today : Date) :
    ∀ (items : List UpdateItem) (d : List EpisodeRecord),
      ((d.map (fun x => x.episode_number)).Nodup) →
      (((items.foldl (updateStep env today) d).map (fun x => x.episode_number)).Nodup)
  | [], _, h => h
  | it :: rest, d, h => by
    rw [List.foldl_cons]
    exact nodup_keys_foldl_updateStep env today rest (updateStep env today d it)
      (nodup_keys_updateStep env today d it h)

theorem mem_updateMoviesList_new :
    ∀ (ms : List StoredMovie) (t : String) (new : StoredMovie), new ∈ updateMoviesList ms t new
  | [], _, new => List.mem_cons_self new []
  | m :: rest, t, new => by
    rw [updateMoviesList]
    by_cases hm : m.title = t
    · rw [if_pos hm]
      exact List.mem_cons_self new rest
    · rw [if_neg hm]
      exact List.mem_cons_of_mem m (mem_updateMoviesList_new rest t new)

theorem mem_updateMoviesList_old :
    ∀ (ms : List StoredMovie) (t : String) (new r : StoredMovie), r ∈ ms → r.title ≠ t →
      r ∈ updateMoviesList ms t new
  | [], _, _, r, hmem, _ => absurd hmem (List.not_mem_nil r)
  | m :: rest, t, new, r, hmem, hrt => by
    rw [updateMoviesList]
    rcases List.mem_cons.mp hmem with heq | hrest
    · subst heq
      rw [if_neg hrt]
      exact List.mem_cons_self r _
    · by_cases hm : m.title = t
      · rw [if_pos hm]
        exact List.mem_cons_of_mem new hrest
      · rw [if_neg hm]
        exact List.mem_cons_of_mem m (mem_updateMoviesList_old rest t new r hrest hrt)

theorem find?_updateMoviesList_self :
    ∀ (ms : List StoredMovie) (t : String) (new : StoredMovie), new.title = t →
      (updateMoviesList ms t new).find? (fun m => m.title == t) = some new
  | [], t, new, hnew => by
    rw [updateMoviesList]
    exact List.find?_cons_of_pos _ (by simp [hnew])
  | m :: rest, t, new, hnew => by
    rw [updateMoviesList]
    by_cases hm : m.title = t
    · rw [if_pos hm]
      exact List.find?_cons_of_pos _ (by simp [hnew])
    · rw [if_neg hm]
      rw [List.find?_cons_of_neg _ (by simp [hm])]
      exact find?_updateMoviesList_self rest t new hnew

theorem find?_updateMoviesList_other :
    ∀ (ms : List StoredMovie) (t t2 : String) (new : StoredMovie), t2 ≠ t → new.title = t2 →
      (updateMoviesList ms t2 new).find? (fun m => m.title == t) =
        ms.find? (fun m => m.title == t)
  | [], t, t2, new, hne, hnew => by
    rw [updateMoviesList]
    rw [List.find?_cons_of_neg _ (by simp [hnew, hne])]
  | m :: rest, t, t2, new, hne, hnew => by
    rw [updateMoviesList]
    by_cases hm : m.title = t2
    · rw [if_pos hm]
      rw [List.find?_cons_of_neg _ (by simp [hnew, hne]),
        List.find?_cons_of_neg _ (by simp [hm, hne])]
    · rw [if_neg hm]
      by_cases hmt : m.title = t
      · rw [List.find?_cons_of_pos _ (by simp [hmt]), List.find?_cons_of_pos _ (by simp [hmt])]
      · rw [List.find?_cons_of_neg _ (by simp [hmt]), List.find?_cons_of_neg _ (by simp [hmt])]
        exact find?_updateMoviesList_other rest t t2 new hne hnew

theorem find?_key_map (f : EpisodeRecord → EpisodeRecord)
    (hf : ∀ x, (f x).episode_number = x.episode_number) (n : Nat) :
    ∀ d : List EpisodeRecord,
      (d.map f).find? (fun e => e.episode_number == n) =
        (d.find? (fun e => e.episode_number == n)).map f
  | [] => rfl
  | x :: rest => by
    have hfx : ((f x).episode_number == n) = (x.episode_number == n) := by rw [hf x]
    rw [List.map_cons, List.find?_cons, List.find?_cons, hfx]
    cases hx : (x.episode_number == n) with
    | true => rfl
    | false => exact find?_key_map f hf n rest

theorem updateStep_keeps_lookup (env : ProviderEnv) (today : Date)
    (d : List EpisodeRecord) (it : UpdateItem) (ep : Nat) (t : String) (target : StoredMovie)
    (hne : ¬(it.episode_number = ep ∧ it.movie.title = t)) (e1 : EpisodeRecord)
    (hfind : d.find? (fun e => e.episode_number == ep) = some e1)
    (hfm : e1.movies.find? (fun m => m.title == t) = some target) :
    ∃ e2, (updateStep env today d it).find? (fun e => e.episode_number == ep) = some e2 ∧
      e2.movies.find? (fun m => m.title == t) = some target := by
  have hkey1 : e1.episode_number = ep := by
    have := List.find?_some hfind
    simpa using this
  simp only [updateStep]
  by_cases hany : d.any (fun x => x.episode_number == it.episode_number) = true
  · rw [if_pos hany]
    rw [find?_key_map _ (fun x => updateStep_key_preserve env today it x) ep d, hfind]
    refine ⟨_, rfl, ?_⟩
    by_cases h1 : (e1.episode_number == it.episode_number) = true
    · have hkey2 : it.episode_number = ep := by
        have : e1.episode_number = it.episode_number := by simpa using h1
        rw [← this, hkey1]
      have htne : it.movie.title ≠ t := fun hc => hne ⟨hkey2, hc⟩
      simp only [if_pos h1]
      rw [find?_updateMoviesList_other e1.movies t it.movie.title _ htne
        (fetch_title env it.movie it.episode_number today)]
      exact hfm
    · simp only [if_neg h1]
      exact hfm
  · rw [if_neg hany]
    rw [List.find?_append, hfind]
    exact ⟨e1, rfl, hfm⟩

theorem updateStep_sets_lookup (env : ProviderEnv) (today : Date)
    (d : List EpisodeRecord) (it : UpdateItem) :
    ∃ e2, (updateStep env today d it).find?
        (fun e => e.episode_number == it.episode_number) = some e2 ∧
      e2.movies.find? (fun m => m.title == it.movie.title) =
        some (fetch_movie_streaming_info env it.movie it.episode_number today) := by
  simp only [updateStep]
  by_cases hany : d.any (fun x => x.episode_number == it.episode_number) = true
  · rw [if_pos hany]
    have hne : d.find? (fun e => e.episode_number == it.episode_number) ≠ none := by
      intro hcon
      rw [List.find?_eq_none] at hcon
      rcases List.any_eq_true.mp hany with ⟨x, hx, hpx⟩
      exact hcon x hx hpx
    rcases Option.ne_none_iff_exists.mp hne with ⟨e1, he1⟩
    rw [find?_key_map _ (fun x => updateStep_key_preserve env today it x) it.episode_number d,
      ← he1]
    refine ⟨_, rfl, ?_⟩
    have he1s : d.find? (fun e => e.episode_number == it.episode_number) = some e1 := he1.symm
    have h1 : (e1.episode_number == it.episode_number) = true := by
      simpa using List.find?_some he1s
    simp only [if_pos h1]
    exact find?_updateMoviesList_self e1.movies it.movie.title _
      (fetch_title env it.movie it.episode_number today)
  · rw [if_neg hany]
    rw [List.find?_append]
    have hnone : d.find? (fun e => e.episode_number == it.episode_number) = none := by
      rw [List.find?_eq_none]
      intro x hx hpx
      rw [Bool.not_eq_true, List.any_eq_false] at hany
      exact hany x hx hpx
    rw [hnone, Option.none_or]
    refine ⟨{ episode_number := it.episode_number, movies := [fetch_movie_streaming_info env it.movie it.episode_number today] }, ?_, ?_⟩
    · exact List.find?_cons_of_pos _ (by simp)
    · exact List.find?_cons_of_pos _
        (by simp [fetch_title env it.movie it.episode_number today])

theorem foldl_updateStep_keeps_lookup (env : ProviderEnv) (today : Date) :
    ∀ (items : List UpdateItem) (d : List EpisodeRecord) (ep : Nat) (t : String)
      (target : StoredMovie),
      (∀ it ∈ items, ¬(it.episode_number = ep ∧ it.movie.title = t)) →
      (∃ e1, d.find? (fun e => e.episode_number == ep) = some e1 ∧
        e1.movies.find? (fun m => m.title == t) = some target) →
      ∃ e2, (items.foldl (updateStep env today) d).find?
          (fun e => e.episode_number == ep) = some e2 ∧
        e2.movies.find? (fun m => m.title == t) = some target
  | [], _, _, _, _, _, h => h
  | it :: rest, d, ep, t, target, hno, h => by
    rcases h with ⟨e1, hfind, hfm⟩
    rw [List.foldl_cons]
    exact foldl_updateStep_keeps_lookup env today rest (updateStep env today d it) ep t target
      (fun x hx => hno x (List.mem_cons_of_mem it hx))
      (updateStep_keeps_lookup env today d it ep t target
        (hno it (List.mem_cons_self it rest)) e1 hfind hfm)

theorem foldl_updateStep_sets_lookup (env : ProviderEnv) (today : Date) :
    ∀ (items : List UpdateItem) (d : List EpisodeRecord) (it : UpdateItem), it ∈ items →
      ((items.map (fun x => (x.episode_number, x.movie.title))).Nodup) →
      ∃ e2, (items.foldl (updateStep env today) d).find?
          (fun e => e.episode_number == it.episode_number) = some e2 ∧
        e2.movies.find? (fun m => m.title == it.movie.title) =
          some (fetch_movie_streaming_info env it.movie it.episode_number today)
  | [], _, it, hmem, _ => absurd hmem (List.not_mem_nil it)
  | it0 :: rest, d, it, hmem, hnd => by
    rw [List.map_cons, List.nodup_cons] at hnd
    rw [List.foldl_cons]
    rcases List.mem_cons.mp hmem with heq | hrest
    · subst heq
      refine foldl_updateStep_keeps_lookup env today rest (updateStep env today d it)
        it.episode_number it.movie.title _ ?_ (updateStep_sets_lookup env today d it)
      intro x hx hcon
      refine hnd.1 ?_
      have : (x.episode_number, x.movie.title) = (it.episode_number, it.movie.title) := by
        rw [hcon.1, hcon.2]
      rw [← this]
      exact List.mem_map_of_mem _ hx
    · exact foldl_updateStep_sets_lookup env today rest (updateStep env today d it0) it
        hrest hnd.2

theorem updateStep_frame (env : ProviderEnv) (today : Date)
    (d : List EpisodeRecord) (it : UpdateItem) (e : EpisodeRecord) (r : StoredMovie)
    (he : e ∈ d) (hr : r ∈ e.movies)
    (hne : ¬(it.episode_number = e.episode_number ∧ it.movie.title = r.title)) :
    ∃ e2, e2 ∈ updateStep env today d it ∧ e2.episode_number = e.episode_number ∧
      r ∈ e2.movies := by
  simp only [updateStep]
  by_cases hany : d.any (fun x => x.episode_number == it.episode_number) = true
  · rw [if_pos hany]
    refine ⟨_, List.mem_map_of_mem _ he, ?_, ?_⟩
    · exact updateStep_key_preserve env today it e
    · by_cases h1 : (e.episode_number == it.episode_number) = true
      · have hkey : it.episode_number = e.episode_number := by
          have : e.episode_number = it.episode_number := by simpa using h1
          exact this.symm
        have htne : r.title ≠ it.movie.title := fun hc => hne ⟨hkey, hc.symm⟩
        simp only [if_pos h1]
        exact mem_updateMoviesList_old e.movies it.movie.title _ r hr htne
      · simp only [if_neg h1]
        exact hr
  · rw [if_neg hany]
    exact ⟨e, List.mem_append_left _ he, rfl, hr⟩

theorem foldl_updateStep_frame (env : ProviderEnv) (today : Date) :
    ∀ (items : List UpdateItem) (d : List EpisodeRecord) (e : EpisodeRecord) (r : StoredMovie),
      e ∈ d → r ∈ e.movies →
      (∀ it ∈ items, ¬(it.episode_number = e.episode_number ∧ it.movie.title = r.title)) →
      ∃ e2, e2 ∈ items.foldl (updateStep env today) d ∧
        e2.episode_number = e.episode_number ∧ r ∈ e2.movies
  | [], _, e, r, he, hr, _ => ⟨e, he, rfl, hr⟩
  | it :: rest, d, e, r, he, hr, hno => by
    rw [List.foldl_cons]
    rcases updateStep_frame env today d it e r he hr
      (hno it (List.mem_cons_self it rest)) with ⟨e2, he2, hk2, hr2⟩
    rcases foldl_updateStep_frame env today rest (updateStep env today d it) e2 r he2 hr2
      (by
        intro x hx hcon
        exact hno x (List.mem_cons_of_mem it hx) ⟨by rw [hcon.1, hk2], hcon.2⟩)
      with ⟨e3, he3, hk3, hr3⟩
    exact ⟨e3, he3, by rw [hk3, hk2], hr3⟩

theorem find?_eq_of_perm {α : Type} (p : α → Bool) (l l2 : List α)
    (hp : ∀ a ∈ l, ∀ b ∈ l, p a = true → p b = true → a = b) (hperm : l.Perm l2) :
    l.find? p = l2.find? p := by
  cases h : l.find? p with
  | none =>
    rw [List.find?_eq_none] at h
    symm
    rw [List.find?_eq_none]
    intro x hx
    exact h x (hperm.mem_iff.mpr hx)
  | some a =>
    have hpa : p a = true := List.find?_some h
    have hal : a ∈ l := List.mem_of_find?_eq_some h
    cases h2 : l2.find? p with
    | none =>
      rw [List.find?_eq_none] at h2
      exact absurd hpa (h2 a (hperm.mem_iff.mp hal))
    | some b =>
      have hpb : p b = true := List.find?_some h2
      have hbl : b ∈ l := hperm.mem_iff.mpr (List.mem_of_find?_eq_some h2)
      rw [hp a hal b hbl hpa hpb]

theorem key_unique_of_nodup (d : List EpisodeRecord)
    (h : (d.map (fun e => e.episode_number)).Nodup) (n : Nat) :
    ∀ a ∈ d, ∀ b ∈ d, (a.episode_number == n) = true → (b.episode_number == n) = true →
      a = b := by
  intro a ha b hb hpa hpb
  by_contra hab
  have hpw : d.Pairwise (fun x y => x.episode_number ≠ y.episode_number) := by
    rw [List.Nodup, List.pairwise_map] at h
    exact h
  have := hpw.forall (fun x y hxy => hxy.symm) ha hb hab
  exact this (by
    have h1 : a.episode_number = n := by simpa using hpa
    have h2 : b.episode_number = n := by simpa using hpb
    rw [h1, h2])

/-! ### Lemmas about the poster cache -/

theorem contains_iff_mem (l : List String) (a : String) : l.contains a = true ↔ a ∈ l :=
  List.elem_iff

theorem downloadSizeStep_fs_mono (env : PosterEnv) (id0 : Nat) (pp : String)
    (st : DlState) (s : String) (f : String) (h : f ∈ st.fs) :
    f ∈ (downloadSizeStep env id0 pp st s).fs := by
  simp only [downloadSizeStep]
  by_cases h1 : st.fs.contains (get_poster_filename id0 s) = true
  · rw [if_pos h1]
    exact h
  · rw [if_neg h1]
    by_cases h2 : env.posterDownloadOk s pp = true
    · rw [if_pos h2]
      exact List.mem_append_left _ h
    · rw [if_neg h2]
      exact h

theorem fold_fs_mono (env : PosterEnv) (id0 : Nat) (pp : String) :
    ∀ (sizes : List String) (st : DlState) (f : String), f ∈ st.fs →
      f ∈ (sizes.foldl (downloadSizeStep env id0 pp) st).fs
  | [], _, _, h => h
  | s :: rest, st, f, h => by
    rw [List.foldl_cons]
    exact fold_fs_mono env id0 pp rest _ f (downloadSizeStep_fs_mono env id0 pp st s f h)

theorem downloadSizeStep_cached_mono (env : PosterEnv) (id0 : Nat) (pp : String)
    (st : DlState) (s : String) (x : String × String) (h : x ∈ st.cached) :
    x ∈ (downloadSizeStep env id0 pp st s).cached := by
  simp only [downloadSizeStep]
  by_cases h1 : st.fs.contains (get_poster_filename id0 s) = true
  · rw [if_pos h1]
    exact List.mem_append_left _ h
  · rw [if_neg h1]
    by_cases h2 : env.posterDownloadOk s pp = true
    · rw [if_pos h2]
      exact List.mem_append_left _ h
    · rw [if_neg h2]
      exact h

theorem fold_cached_mono (env : PosterEnv) (id0 : Nat) (pp : String) :
    ∀ (sizes : List String) (st : DlState) (x : String × String), x ∈ st.cached →
      x ∈ (sizes.foldl (downloadSizeStep env id0 pp) st).cached
  | [], _, _, h => h
  | s :: rest, st, x, h => by
    rw [List.foldl_cons]
    exact fold_cached_mono env id0 pp rest _ x (downloadSizeStep_cached_mono env id0 pp st s x h)

theorem fold_writes_of_mem_fs (env : PosterEnv) (id0 : Nat) (pp : String) :
    ∀ (sizes : List String) (st : DlState) (f : String), f ∈ st.fs →
      ((sizes.foldl (downloadSizeStep env id0 pp) st).writes.count f = st.writes.count f)
  | [], _, _, _ => rfl
  | s :: rest, st, f, h => by
    rw [List.foldl_cons]
    have hmono := downloadSizeStep_fs_mono env id0 pp st s f h
    rw [fold_writes_of_mem_fs env id0 pp rest _ f hmono]
    simp only [downloadSizeStep]
    by_cases h1 : st.fs.contains (get_poster_filename id0 s) = true
    · rw [if_pos h1]
    · rw [if_neg h1]
      by_cases h2 : env.posterDownloadOk s pp = true
      · rw [if_pos h2]
        have hne : f ≠ get_poster_filename id0 s := by
          intro hc
          exact h1 ((contains_iff_mem st.fs (get_poster_filename id0 s)).mpr (hc ▸ h))
        simp [List.count_append, List.count_cons, hne]
      · rw [if_neg h2]

theorem fold_writes_of_not_fs (env : PosterEnv) (id0 : Nat) (pp : String) :
    ∀ (sizes : List String) (st : DlState) (f : String),
      f ∉ (sizes.foldl (downloadSizeStep env id0 pp) st).fs →
      ((sizes.foldl (downloadSizeStep env id0 pp) st).writes.count f = st.writes.count f)
  | [], _, _, _ => rfl
  | s :: rest, st, f, hnot => by
    rw [List.foldl_cons] at hnot ⊢
    rw [fold_writes_of_not_fs env id0 pp rest _ f hnot]
    simp only [downloadSizeStep]
    by_cases h1 : st.fs.contains (get_poster_filename id0 s) = true
    · rw [if_pos h1]
    · rw [if_neg h1]
      by_cases h2 : env.posterDownloadOk s pp = true
      · rw [if_pos h2]
        have hne : f ≠ get_poster_filename id0 s := by
          intro hc
          refine hnot (fold_fs_mono env id0 pp rest _ f ?_)
          simp only [downloadSizeStep, if_neg h1, if_pos h2]
          exact List.mem_append_right _ (by simp [hc])
        simp [List.count_append, List.count_cons, hne]
      · rw [if_neg h2]

theorem fold_writes_le (env : PosterEnv) (id0 : Nat) (pp : String) :
    ∀ (sizes : List String) (st : DlState) (f : String),
      ((sizes.foldl (downloadSizeStep env id0 pp) st).writes.count f ≤
        st.writes.count f + (if f ∈ st.fs then 0 else 1))
  | [], _, _ => Nat.le_add_right _ _
  | s :: rest, st, f => by
    rw [List.foldl_cons]
    by_cases hmem : f ∈ st.fs
    · rw [fold_writes_of_mem_fs env id0 pp rest _ f
        (downloadSizeStep_fs_mono env id0 pp st s f hmem)]
      have : (downloadSizeStep env id0 pp st s).writes.count f = st.writes.count f := by
        simp only [downloadSizeStep]
        by_cases h1 : st.fs.contains (get_poster_filename id0 s) = true
        · rw [if_pos h1]
        · rw [if_neg h1]
          by_cases h2 : env.posterDownloadOk s pp = true
          · rw [if_pos h2]
            have hne : f ≠ get_poster_filename id0 s := by
              intro hc
              exact h1 ((contains_iff_mem st.fs (get_poster_filename id0 s)).mpr (hc ▸ hmem))
            simp [List.count_append, List.count_cons, hne]
          · rw [if_neg h2]
      rw [this]
      exact Nat.le_add_right _ _
    · have hb := fold_writes_le env id0 pp rest (downloadSizeStep env id0 pp st s) f
      refine le_trans hb ?_
      simp only [downloadSizeStep]
      by_cases h1 : st.fs.contains (get_poster_filename id0 s) = true
      · simp only [if_pos h1]
        simp only [if_neg hmem]
        omega
      · simp only [if_neg h1]
        by_cases h2 : env.posterDownloadOk s pp = true
        · simp only [if_pos h2]
          by_cases hf : f = get_poster_filename id0 s
          · have hin : f ∈ st.fs ++ [get_poster_filename id0 s] :=
              List.mem_append_right _ (by simp [hf])
            simp only [if_pos hin, if_neg hmem]
            have : (st.writes ++ [get_poster_filename id0 s]).count f =
                st.writes.count f + 1 := by
              simp [List.count_append, List.count_cons, hf]
            omega
          · have hnin : f ∉ st.fs ++ [get_poster_filename id0 s] := by
              intro hc
              rcases List.mem_append.mp hc with hc1 | hc1
              · exact hmem hc1
              · exact hf (by simpa using hc1)
            simp only [if_neg hnin, if_neg hmem]
            have : (st.writes ++ [get_poster_filename id0 s]).count f = st.writes.count f := by
              simp [List.count_append, List.count_cons, hf]
            omega
        · simp only [if_neg h2]
          simp only [if_neg hmem]
          omega

theorem fold_cached_report (env : PosterEnv) (id0 : Nat) (pp : String) (size : String) :
    ∀ (sizes : List String) (st : DlState), get_poster_filename id0 size ∈ st.fs →
      size ∈ sizes →
      (size, "posters/" ++ get_poster_filename id0 size) ∈
        (sizes.foldl (downloadSizeStep env id0 pp) st).cached
  | [], _, _, hmem => absurd hmem (List.not_mem_nil size)
  | s :: rest, st, hfs, hmem => by
    rw [List.foldl_cons]
    rcases List.mem_cons.mp hmem with heq | hrest
    · subst heq
      refine fold_cached_mono env id0 pp rest _ _ ?_
      have hc : st.fs.contains (get_poster_filename id0 size) = true :=
        (contains_iff_mem _ _).mpr hfs
      simp only [downloadSizeStep, if_pos hc]
      exact List.mem_append_right _ (by simp)
    · exact fold_cached_report env id0 pp size rest _
        (downloadSizeStep_fs_mono env id0 pp st s _ hfs) hrest

theorem fold_no_attempt (env : PosterEnv) (id0 : Nat) (pp : String) (size : String) :
    ∀ (sizes : List String) (st : DlState), get_poster_filename id0 size ∈ st.fs →
      size ∉ st.attempts →
      size ∉ (sizes.foldl (downloadSizeStep env id0 pp) st).attempts
  | [], _, _, hatt => hatt
  | s :: rest, st, hfs, hatt => by
    rw [List.foldl_cons]
    refine fold_no_attempt env id0 pp size rest _
      (downloadSizeStep_fs_mono env id0 pp st s _ hfs) ?_
    simp only [downloadSizeStep]
    by_cases h1 : st.fs.contains (get_poster_filename id0 s) = true
    · rw [if_pos h1]
      exact hatt
    · have hne : s ≠ size := by
        intro hc
        subst hc
        exact h1 ((contains_iff_mem _ _).mpr hfs)
      rw [if_neg h1]
      by_cases h2 : env.posterDownloadOk s pp = true
      · rw [if_pos h2]
        intro hc
        rcases List.mem_append.mp hc with hc1 | hc1
        · exact hatt hc1
        · have hcs : size = s := by simpa using hc1
          exact hne hcs.symm
      · rw [if_neg h2]
        intro hc
        rcases List.mem_append.mp hc with hc1 | hc1
        · exact hatt hc1
        · have hcs : size = s := by simpa using hc1
          exact hne hcs.symm

theorem download_poster_eq_foldl (env : PosterEnv) (id0 : Nat) (sizes : List String)
    (fs0 : List String) (pp : String) (hkey : env.hasTmdbKey = true)
    (hdet : env.movieDetails id0 = some (some pp)) :
    download_poster env id0 sizes fs0 =
      sizes.foldl (downloadSizeStep env id0 pp)
        { cached := [], fs := fs0, writes := [], attempts := [] } := by
  simp [download_poster, hkey, hdet]

/-! ### Supporting lemma for empty provider results -/

theorem fetch_sources_empty (env : ProviderEnv)
    (hw : ∀ i, env.watchmodeSources i = []) (ht : ∀ i, env.tmdbSources i = [])
    (mv : InputMovie) (ep : Nat) (today : Date) :
    (fetch_movie_streaming_info env mv ep today).streaming_sources = [] := by
  show mergeSources (wmSourcesOf env (wmLookup env mv))
    (tmdbSourcesOf env (tmdbIdOf env mv (wmLookup env mv))) = []
  have h1 : wmSourcesOf env (wmLookup env mv) = [] := by
    cases wmLookup env mv with
    | none => rfl
    | some w => exact hw w.id
  have h2 : tmdbSourcesOf env (tmdbIdOf env mv (wmLookup env mv)) = [] := by
    cases tmdbIdOf env mv (wmLookup env mv) with
    | none => rfl
    | some t0 =>
      show (if env.hasTmdbKey then env.tmdbSources t0 else []) = []
      by_cases hk : env.hasTmdbKey = true
      · rw [if_pos hk]
        exact ht t0
      · rw [if_neg hk]
  rw [h1, h2]
  rfl

/-! ### Claim theorems -/

/-- C1: the claim is violated by the code as wired.  `run()` computes its
work list before anything loads streaming_data.json, so the freshness check
runs against `self.streaming_data = None` and every movie is refetched: here
the stored record for (episode 1, "Halloween") is two days old — squarely
inside the 7-day window and `is_movie_recently_updated` on the loaded data
confirms it fresh — yet the run work list (hence the network fetch list)
still contains the movie. -/
theorem run_refetches_fresh_movie :
    is_movie_recently_updated (some sdEx) todayEx "Halloween" 1 = true ∧
    fetchedOf (run (some (Except.ok mdEx)) (some (Except.ok sdEx)) envEx todayEx) =
      [{ episode_number := 1, movie := exMovie }] := by
  constructor
  · decide
  · decide

/-- C2 counterexample: `existing_keys` is computed once, before the append
loop, so a (name, type) pair occurring twice in the secondary (TMDB) list is
appended twice; the merged list then does contain two sources with the same
(name, type) pair, contradicting the claim. -/
theorem merge_keeps_secondary_duplicates :
    mergeSources [] [nfT, nfT] = [nfT, nfT] ∧
    ¬ ((mergeSources [] [nfT, nfT]).map sourceKey).Nodup := by
  constructor
  · decide
  · decide

/-- C2 amended: all primary sources are kept, and a secondary source is
appended exactly when its (name, type) pair does not occur among the primary
sources; hence no appended secondary source shares a (name, type) pair with
a primary source, but duplicates within the secondary list may each be
appended. -/
theorem merge_spec (w t : List Source) :
    mergeSources w t =
      w ++ t.filter (fun s => !(decide (sourceKey s ∈ w.map sourceKey))) ∧
    (∀ s, s ∈ mergeSources w t → s ∉ w → sourceKey s ∉ w.map sourceKey) := by
  refine ⟨mergeSources_eq w t, ?_⟩
  intro s hs hsw
  rw [mergeSources_eq w t] at hs
  rcases List.mem_append.mp hs with h | h
  · exact absurd h hsw
  · have hp := List.of_mem_filter h
    have hp2 : sourceKey s ∉ w.map sourceKey := by simpa using hp
    exact hp2

/-- C2 amended, witness at a concrete input. -/
theorem merge_spec_witness :
    mergeSources [nfW] [tubi] =
      [nfW] ++ [tubi].filter (fun s => !(decide (sourceKey s ∈ [nfW].map sourceKey))) ∧
    sourceKey tubi ∉ [nfW].map sourceKey :=
  ⟨(merge_spec [nfW] [tubi]).1, (merge_spec [nfW] [tubi]).2 tubi (by decide) (by decide)⟩

/-- C3: a record whose last_updated is absent, unparseable, or at least the
cache window old is classified not recently updated, and the movie is put on
the refetch work list. -/
theorem stale_absent_or_unparseable_refetched
    (sd : StreamingData) (today : Date) (md : MoviesData) (ep : Nat) (t : String)
    (e : EpisodeRecord) (r : StoredMovie) (ie : InputEpisode) (im : InputMovie)
    (hkeys : ((sd.episodes.map (fun x => x.episode_number)).Nodup))
    (he : e ∈ sd.episodes) (hk : e.episode_number = ep)
    (htitles : ((e.movies.map (fun m => m.title)).Nodup))
    (hr : r ∈ e.movies) (ht : r.title = t)
    (hstale : r.last_updated = none ∨
      (∃ s, r.last_updated = some s ∧ parseDateYMD s = none) ∨
      (∃ s d0, r.last_updated = some s ∧ parseDateYMD s = some d0 ∧
        (cache_duration_days : Int) ≤ daysSince today d0))
    (hie : ie ∈ md.episodes) (hkie : ie.episode_number = ep) (him : im ∈ ie.movies)
    (htim : im.title = t) :
    is_movie_recently_updated (some sd) today t ep = false ∧
    ({ episode_number := ep, movie := im } : UpdateItem) ∈
      get_movies_to_update md (some sd) today := by
  have hfalse : is_movie_recently_updated (some sd) today t ep = false := by
    rw [isRecent_eq_decision sd today t ep e r hkeys he hk htitles hr ht]
    rcases hstale with h0 | ⟨s, hs, hps⟩ | ⟨s, d0, hs, hps, hd⟩
    · rw [movieDecision, h0]
      rfl
    · rw [movieDecision, hs]
      by_cases hse : s = ""
      · simp [luDecision, hse]
      · simp [luDecision, hse, hps, parsedDecision]
    · rw [movieDecision, hs]
      by_cases hse : s = ""
      · simp [luDecision, hse]
      · simp only [luDecision, if_neg hse, hps, parsedDecision, Option.getD_some,
          decide_eq_false_iff_not, not_lt]
        exact hd
  refine ⟨hfalse, ?_⟩
  rw [get_movies_to_update, List.mem_flatMap]
  refine ⟨ie, hie, ?_⟩
  rw [List.mem_map]
  refine ⟨im, ?_, by rw [hkie]⟩
  rw [List.mem_filter]
  refine ⟨him, ?_⟩
  rw [htim, hkie, hfalse]
  rfl

/-- C3 witness: the concrete record is 52 days old at `lateDayEx`, so the
movie is classified stale and refetched. -/
theorem stale_absent_or_unparseable_refetched_witness :
    is_movie_recently_updated (some sdEx) lateDayEx "Halloween" 1 = false ∧
    ({ episode_number := 1, movie := exMovie } : UpdateItem) ∈
      get_movies_to_update mdEx (some sdEx) lateDayEx :=
  stale_absent_or_unparseable_refetched sdEx lateDayEx mdEx 1 "Halloween"
    { episode_number := 1, movies := [exRecord] } exRecord
    { episode_number := 1, movies := [exMovie] } exMovie
    (by decide) (by decide) rfl (by decide) (by decide) rfl
    (Or.inr (Or.inr ⟨"2026-10-10", { year := 2026, month := 10, day := 10 }, rfl,
      by decide, by decide⟩))
    (by decide) rfl (by decide) rfl

/-- C4 counterexample: a missing streaming_data.json does not exit the
process; `load_streaming_data` replaces it with an empty document and the
run continues. -/
theorem missing_streaming_file_not_fatal :
    load_streaming_data none = LoadOutcome.ok emptyStreamingData ∧
    isFatal (load_streaming_data (none : JsonFile StreamingData)) = false :=
  ⟨rfl, rfl⟩

/-- C4 amended: a missing movies.json exits with code 1, malformed JSON in
either file is fatal (exit for movies.json, uncaught exception for
streaming_data.json), but a missing streaming_data.json is not fatal: it
yields the empty document and the run continues. -/
theorem input_file_failure_modes (errM errS : String) :
    load_movies_data none = LoadOutcome.exitCode 1 ∧
    load_movies_data (some (Except.error errM)) = LoadOutcome.exitCode 1 ∧
    isFatal (load_streaming_data (some (Except.error errS))) = true ∧
    load_streaming_data none = LoadOutcome.ok emptyStreamingData :=
  ⟨rfl, rfl, rfl, rfl⟩

/-- C5: when every provider lookup returns nothing, the fetched record has an
empty streaming_sources list (no exception is modelled: the function is
total), and every movie on the work list is still processed and stored. -/
theorem fetch_failures_yield_empty_and_continue (env : ProviderEnv)
    (hw : ∀ i, env.watchmodeSources i = []) (ht : ∀ i, env.tmdbSources i = [])
    (mv : InputMovie) (ep : Nat) (today : Date) (sd : StreamingData)
    (items : List UpdateItem)
    (hitems : ((items.map (fun x => (x.episode_number, x.movie.title))).Nodup)) :
    (fetch_movie_streaming_info env mv ep today).streaming_sources = [] ∧
    (∀ it ∈ items, ∃ e,
      e ∈ (update_streaming_data sd items env today).episodes ∧
      e.episode_number = it.episode_number ∧
      fetch_movie_streaming_info env it.movie it.episode_number today ∈ e.movies ∧
      (fetch_movie_streaming_info env it.movie it.episode_number today).streaming_sources
        = []) := by
  refine ⟨fetch_sources_empty env hw ht mv ep today, ?_⟩
  intro it hit
  rcases foldl_updateStep_sets_lookup env today items (sd.episodes.foldl dictInsert [])
    it hit hitems with ⟨e2, hfind, hfm⟩
  refine ⟨e2, ?_, ?_, ?_, fetch_sources_empty env hw ht it.movie it.episode_number today⟩
  · show e2 ∈ List.insertionSort epLE
      (items.foldl (updateStep env today) (sd.episodes.foldl dictInsert []))
    exact (List.mem_insertionSort epLE).mpr (List.mem_of_find?_eq_some hfind)
  · have := List.find?_some hfind
    simpa using this
  · exact List.mem_of_find?_eq_some hfm

/-- C5 witness at a concrete failing environment. -/
theorem fetch_failures_yield_empty_and_continue_witness :
    (fetch_movie_streaming_info envEx exMovie 1 todayEx).streaming_sources = [] ∧
    (∃ e, e ∈ (update_streaming_data sdEx [{ episode_number := 1, movie := exMovie }]
        envEx todayEx).episodes ∧
      e.episode_number = 1 ∧
      fetch_movie_streaming_info envEx exMovie 1 todayEx ∈ e.movies ∧
      (fetch_movie_streaming_info envEx exMovie 1 todayEx).streaming_sources = []) := by
  have h := fetch_failures_yield_empty_and_continue envEx (fun _ => rfl) (fun _ => rfl)
    exMovie 1 todayEx sdEx [{ episode_number := 1, movie := exMovie }] (by decide)
  exact ⟨h.1, h.2 { episode_number := 1, movie := exMovie } (List.mem_cons_self _ _)⟩

/-- C6: under well-formed inputs (unique episode numbers in the stored data,
update items with distinct (episode, title) keys), the record looked up at a
listed (episode, title) in the saved data is exactly the freshly fetched
record, and every stored record not targeted by the update list survives
unchanged in its episode. -/
theorem update_replaces_listed_and_preserves_rest
    (sd : StreamingData) (items : List UpdateItem) (env : ProviderEnv) (today : Date)
    (hkeys : ((sd.episodes.map (fun x => x.episode_number)).Nodup))
    (hitems : ((items.map (fun x => (x.episode_number, x.movie.title))).Nodup)) :
    (∀ it ∈ items, ∃ e,
      (update_streaming_data sd items env today).episodes.find?
          (fun x => x.episode_number == it.episode_number) = some e ∧
      e.movies.find? (fun m => m.title == it.movie.title) =
        some (fetch_movie_streaming_info env it.movie it.episode_number today)) ∧
    (∀ e ∈ sd.episodes, ∀ r ∈ e.movies,
      (∀ it ∈ items, ¬(it.episode_number = e.episode_number ∧ it.movie.title = r.title)) →
      ∃ e2, e2 ∈ (update_streaming_data sd items env today).episodes ∧
        e2.episode_number = e.episode_number ∧ r ∈ e2.movies) := by
  have hexist : sd.episodes.foldl dictInsert [] = sd.episodes :=
    foldl_dictInsert_eq sd.episodes [] (by simpa using hkeys)
  constructor
  · intro it hit
    rcases foldl_updateStep_sets_lookup env today items (sd.episodes.foldl dictInsert [])
      it hit hitems with ⟨e2, hfind, hfm⟩
    have hndk : (((items.foldl (updateStep env today)
        (sd.episodes.foldl dictInsert [])).map (fun x => x.episode_number)).Nodup) :=
      nodup_keys_foldl_updateStep env today items _
        (nodup_keys_foldl_dictInsert sd.episodes [] (by simp))
    have hperm := List.perm_insertionSort epLE
      (items.foldl (updateStep env today) (sd.episodes.foldl dictInsert []))
    have hnd2 : (((List.insertionSort epLE (items.foldl (updateStep env today)
        (sd.episodes.foldl dictInsert []))).map (fun x => x.episode_number)).Nodup) :=
      ((hperm.map _).nodup_iff).mpr hndk
    refine ⟨e2, ?_, hfm⟩
    show (List.insertionSort epLE (items.foldl (updateStep env today)
      (sd.episodes.foldl dictInsert []))).find?
        (fun x => x.episode_number == it.episode_number) = some e2
    rw [find?_eq_of_perm (fun x => x.episode_number == it.episode_number) _ _
      (key_unique_of_nodup _ hnd2 it.episode_number) hperm]
    exact hfind
  · intro e he r hr hno
    rcases foldl_updateStep_frame env today items (sd.episodes.foldl dictInsert []) e r
      (by rw [hexist]; exact he) hr hno with ⟨e2, he2, hk2, hr2⟩
    refine ⟨e2, ?_, hk2, hr2⟩
    show e2 ∈ List.insertionSort epLE
      (items.foldl (updateStep env today) (sd.episodes.foldl dictInsert []))
    exact (List.mem_insertionSort epLE).mpr he2

/-- C6 witness at a concrete input: the looked-up record for
(episode 1, "Halloween") in the saved data is the freshly fetched one. -/
theorem update_replaces_listed_and_preserves_rest_witness :
    ∃ e, (update_streaming_data sdEx [{ episode_number := 1, movie := exMovie }]
        envEx todayEx).episodes.find? (fun x => x.episode_number == 1) = some e ∧
      e.movies.find? (fun m => m.title == exMovie.title) =
        some (fetch_movie_streaming_info envEx exMovie 1 todayEx) := by
  have h := update_replaces_listed_and_preserves_rest sdEx
    [{ episode_number := 1, movie := exMovie }] envEx todayEx (by decide) (by decide)
  exact h.1 { episode_number := 1, movie := exMovie } (List.mem_cons_self _ _)

/-- C7: the concrete merge of the spec example: the duplicate
(Netflix, subscription) from the secondary provider is not appended. -/
theorem merge_example_no_duplicate : mergeSources [nfW] [nfT, tubi] = [nfW, tubi] := by
  decide

/-- C8: if the poster file for (id, size) is already on disk, the call
reports the cached path, issues no image request for that size and never
writes that file; and for any starting filesystem, two consecutive calls
write the file for a given (id, size) at most once in total. -/
theorem poster_cache_idempotent (env : PosterEnv) (id0 : Nat) (sizes : List String)
    (fs0 : List String) (size : String) (pp : String)
    (hkey : env.hasTmdbKey = true)
    (hdet : env.movieDetails id0 = some (some pp))
    (hmem : size ∈ sizes)
    (hex : get_poster_filename id0 size ∈ fs0) :
    (size, "posters/" ++ get_poster_filename id0 size) ∈
      (download_poster env id0 sizes fs0).cached ∧
    size ∉ (download_poster env id0 sizes fs0).attempts ∧
    get_poster_filename id0 size ∉ (download_poster env id0 sizes fs0).writes ∧
    (∀ fs1 : List String,
      (download_poster env id0 sizes fs1).writes.count (get_poster_filename id0 size) +
        (download_poster env id0 sizes
          (download_poster env id0 sizes fs1).fs).writes.count
            (get_poster_filename id0 size) ≤ 1) := by
  rw [download_poster_eq_foldl env id0 sizes fs0 pp hkey hdet]
  refine ⟨?_, ?_, ?_, ?_⟩
  · exact fold_cached_report env id0 pp size sizes _ hex hmem
  · exact fold_no_attempt env id0 pp size sizes _ hex (List.not_mem_nil size)
  · rw [← List.count_eq_zero]
    exact fold_writes_of_mem_fs env id0 pp sizes _ _ hex
  · intro fs1
    rw [download_poster_eq_foldl env id0 sizes fs1 pp hkey hdet,
      download_poster_eq_foldl env id0 sizes _ pp hkey hdet]
    by_cases hf : get_poster_filename id0 size ∈
        (sizes.foldl (downloadSizeStep env id0 pp)
          { cached := [], fs := fs1, writes := [], attempts := [] }).fs
    · have h2 := fold_writes_of_mem_fs env id0 pp sizes
        ({ cached := [], fs := (sizes.foldl (downloadSizeStep env id0 pp) { cached := [], fs := fs1, writes := [], attempts := [] }).fs, writes := [], attempts := [] })
        (get_poster_filename id0 size) hf
      have h1 := fold_writes_le env id0 pp sizes
        { cached := [], fs := fs1, writes := [], attempts := [] }
        (get_poster_filename id0 size)
      rw [h2]
      simp only [List.count_nil] at h1 ⊢
      by_cases hm1 : get_poster_filename id0 size ∈ fs1
      · rw [if_pos hm1] at h1
        omega
      · rw [if_neg hm1] at h1
        omega
    · have h1 := fold_writes_of_not_fs env id0 pp sizes
        { cached := [], fs := fs1, writes := [], attempts := [] }
        (get_poster_filename id0 size) hf
      have h2 := fold_writes_le env id0 pp sizes
        ({ cached := [], fs := (sizes.foldl (downloadSizeStep env id0 pp) { cached := [], fs := fs1, writes := [], attempts := [] }).fs, writes := [], attempts := [] })
        (get_poster_filename id0 size)
      rw [h1]
      simp only [List.count_nil] at h2 ⊢
      by_cases hm2 : get_poster_filename id0 size ∈
          (sizes.foldl (downloadSizeStep env id0 pp)
            { cached := [], fs := fs1, writes := [], attempts := [] }).fs
      · exact absurd hm2 hf
      · rw [if_neg hm2] at h2
        omega

/-- C8 witness at a concrete cached file. -/
theorem poster_cache_idempotent_witness :
    ("w342", "posters/" ++ get_poster_filename 5 "w342") ∈
      (download_poster penvEx 5 ["w342", "w500"] [get_poster_filename 5 "w342"]).cached ∧
    "w342" ∉
      (download_poster penvEx 5 ["w342", "w500"] [get_poster_filename 5 "w342"]).attempts ∧
    get_poster_filename 5 "w342" ∉
      (download_poster penvEx 5 ["w342", "w500"] [get_poster_filename 5 "w342"]).writes ∧
    (download_poster penvEx 5 ["w342", "w500"] []).writes.count
        (get_poster_filename 5 "w342") +
      (download_poster penvEx 5 ["w342", "w500"]
        (download_poster penvEx 5 ["w342", "w500"] []).fs).writes.count
          (get_poster_filename 5 "w342") ≤ 1 := by
  have h := poster_cache_idempotent penvEx 5 ["w342", "w500"]
    [get_poster_filename 5 "w342"] "w342" "/p.jpg" rfl rfl (by decide) (by decide)
  exact ⟨h.1, h.2.1, h.2.2.1, h.2.2.2 []⟩

/-- C9: after an update, the saved episode list is strictly ascending in
episode number — in particular sorted, with at most one entry per episode
number — for arbitrary prior data, update lists and environments. -/
theorem updated_episodes_sorted_unique (sd : StreamingData) (items : List UpdateItem)
    (env : ProviderEnv) (today : Date) :
    ((update_streaming_data sd items env today).episodes).Pairwise
      (fun a b => a.episode_number < b.episode_number) := by
  have hndk : (((items.foldl (updateStep env today)
      (sd.episodes.foldl dictInsert [])).map (fun x => x.episode_number)).Nodup) :=
    nodup_keys_foldl_updateStep env today items _
      (nodup_keys_foldl_dictInsert sd.episodes [] (by simp))
  have hperm := List.perm_insertionSort epLE
    (items.foldl (updateStep env today) (sd.episodes.foldl dictInsert []))
  have hs : List.Sorted epLE (List.insertionSort epLE
      (items.foldl (updateStep env today) (sd.episodes.foldl dictInsert []))) :=
    List.sorted_insertionSort epLE _
  have hnd2 : (((List.insertionSort epLE (items.foldl (updateStep env today)
      (sd.episodes.foldl dictInsert []))).map (fun x => x.episode_number)).Nodup) :=
    ((hperm.map _).nodup_iff).mpr hndk
  have hne : (List.insertionSort epLE (items.foldl (updateStep env today)
      (sd.episodes.foldl dictInsert []))).Pairwise
      (fun a b => a.episode_number ≠ b.episode_number) := by
    rw [List.Nodup, List.pairwise_map] at hnd2
    exact hnd2
  show (List.insertionSort epLE (items.foldl (updateStep env today)
    (sd.episodes.foldl dictInsert []))).Pairwise
      (fun a b => a.episode_number < b.episode_number)
  exact (hs.and hne).imp (fun h => lt_of_le_of_ne h.1 h.2)

/-- C10: a fetched record is stamped with the current date in "%Y-%m-%d"
form, and immediately after the record is fetched and stored, the freshness
check on that (episode, title) parses the stamp and reports it fresh. -/
theorem fetched_record_is_fresh (env : ProviderEnv) (mv : InputMovie) (ep : Nat)
    (today : Date) (hv : today.Valid) :
    (fetch_movie_streaming_info env mv ep today).last_updated =
      some (formatYMD today) ∧
    is_movie_recently_updated
      (some (update_streaming_data emptyStreamingData
        [{ episode_number := ep, movie := mv }] env today)) today mv.title ep = true := by
  refine ⟨rfl, ?_⟩
  have hepis : (update_streaming_data emptyStreamingData
      [{ episode_number := ep, movie := mv }] env today).episodes =
      [{ episode_number := ep, movies := [fetch_movie_streaming_info env mv ep today] }] :=
    rfl
  have hdec := movieDecision_fresh today hv _ (fetch_last_updated env mv ep today)
  show (match scanEpisodes today mv.title ep (update_streaming_data emptyStreamingData
      [{ episode_number := ep, movie := mv }] env today).episodes with
    | some b => b
    | none => false) = true
  rw [hepis, scanEpisodes, if_pos rfl, scanMovies,
    if_pos (fetch_title env mv ep today), hdec]

/-- C10 witness at a concrete date. -/
theorem fetched_record_is_fresh_witness :
    todayEx.Valid ∧
    (fetch_movie_streaming_info envEx exMovie 1 todayEx).last_updated =
      some (formatYMD todayEx) ∧
    is_movie_recently_updated
      (some (update_streaming_data emptyStreamingData
        [{ episode_number := 1, movie := exMovie }] envEx todayEx))
      todayEx exMovie.title 1 = true := by
  have h := fetched_record_is_fresh envEx exMovie 1 todayEx (by decide)
  exact ⟨by decide, h.1, h.2⟩

end TooScary
